import Mathlib

/-!
Verification of the FrndZone proximity/expiry feed against its
implementation.

The server side of the repository is a set of PostgreSQL functions
(`get_nearby_posts`, `get_friend_posts`, `get_nearby_profiles`,
`get_nearby_users`) in `supabase/migrations`, and the client side is a
React code base (`useDeviceLocation`, `Feed.tsx`, `CreatePost.tsx`).
This file gives a shallow embedding of those pieces:

* SQL rows become Lean structures; timestamps and coordinates are `ℚ`.
* `ST_Distance` is abstracted as a distance oracle
  `dist : Point → Point → ℚ` returning meters, and `ST_DWithin` as a
  separate boolean oracle `dW : Point → Point → ℚ → Bool` (the
  index-assisted bounding check, which may disagree with `dist` near
  the boundary — this is exactly why migration
  `20251106000002_fix_distance_filter.sql` added an exact refilter).
  `exactDWithin` is the instance where the check agrees with `dist`.
* `WHERE` clauses become `List.filter`/`List.filterMap`; `ORDER BY`
  becomes the stable insertion sort `orderBy` below.
* Client hooks become explicit state-passing functions.
-/

namespace FrndZone

/-- A geographic point (latitude, longitude), as stored in the
`GEOGRAPHY(POINT)` columns and the client `LocationPoint` values. -/
structure Point where
  lat : ℚ
  lng : ℚ
deriving DecidableEq, Repr

/-- Abstraction of PostGIS `ST_Distance` on geography values: distance in
meters between two points. -/
abbrev DistFn := Point → Point → ℚ

/-- Abstraction of PostGIS `ST_DWithin`: the (index-assisted) check that
two points are within a given number of meters. -/
abbrev DWithinFn := Point → Point → ℚ → Bool

/-- The `ST_DWithin` semantics in which the bounding check agrees exactly
with `ST_Distance`: within `d` meters iff the distance is at most `d`. -/
def exactDWithin (dist : DistFn) : DWithinFn := fun a b d => decide (dist a b ≤ d)

/-! ## Stable sort (embedding of SQL `ORDER BY`) -/

/-- Insert `x` into `l` in front of the first element `y` with `le x y`. -/
def insertLe (le : α → α → Bool) (x : α) : List α → List α
  | [] => [x]
  | y :: ys => if le x y then x :: y :: ys else y :: insertLe le x ys

/-- Stable insertion sort; the embedding of `ORDER BY` with comparator
`le`. -/
def orderBy (le : α → α → Bool) : List α → List α
  | [] => []
  | x :: xs => insertLe le x (orderBy le xs)

theorem mem_insertLe (le : α → α → Bool) (x a : α) :
    ∀ l : List α, (a ∈ insertLe le x l ↔ a = x ∨ a ∈ l)
  | [] => by simp [insertLe]
  | y :: ys => by
    by_cases h : le x y = true
    · simp [insertLe, h]
    · simp only [insertLe, h]
      simp only [Bool.false_eq_true, if_false, List.mem_cons, mem_insertLe le x a ys]
      tauto

theorem mem_orderBy (le : α → α → Bool) (a : α) :
    ∀ l : List α, (a ∈ orderBy le l ↔ a ∈ l)
  | [] => by simp [orderBy]
  | x :: xs => by
    simp [orderBy, mem_insertLe, mem_orderBy le a xs]

/-- `l` is sorted with respect to the boolean comparator `le`. -/
def SortedLe (le : α → α → Bool) (l : List α) : Prop :=
  l.Pairwise (fun a b => le a b = true)

theorem insertLe_eq_cons (le : α → α → Bool) (x : α) (l : List α)
    (h : ∀ z ∈ l, le x z = true) : insertLe le x l = x :: l := by
  cases l with
  | nil => rfl
  | cons y ys => simp [insertLe, h y (List.mem_cons_self y ys)]

theorem sortedLe_insertLe (le : α → α → Bool)
    (htot : ∀ a b, le a b = true ∨ le b a = true)
    (htr : ∀ a b c, le a b = true → le b c = true → le a c = true)
    (x : α) : ∀ l : List α, SortedLe le l → SortedLe le (insertLe le x l)
  | [], _ => by simp [insertLe, SortedLe]
  | y :: ys, hs => by
    have hy : ∀ z ∈ ys, le y z = true := fun z hz => (List.pairwise_cons.mp hs).1 z hz
    have hys : SortedLe le ys := (List.pairwise_cons.mp hs).2
    by_cases h : le x y = true
    · simp only [insertLe, h, if_true]
      refine List.pairwise_cons.mpr ⟨?_, hs⟩
      intro z hz
      rcases List.mem_cons.mp hz with rfl | hz'
      · exact h
      · exact htr x y z h (hy z hz')
    · simp only [insertLe, h, Bool.false_eq_true, if_false]
      refine List.pairwise_cons.mpr ⟨?_, sortedLe_insertLe le htot htr x ys hys⟩
      intro z hz
      rcases (mem_insertLe le x z ys).mp hz with heq | hz'
      · rw [heq]
        rcases htot x y with hxy | hyx
        · exact absurd hxy h
        · exact hyx
      · exact hy z hz'

theorem sortedLe_orderBy (le : α → α → Bool)
    (htot : ∀ a b, le a b = true ∨ le b a = true)
    (htr : ∀ a b c, le a b = true → le b c = true → le a c = true) :
    ∀ l : List α, SortedLe le (orderBy le l)
  | [] => by simp [orderBy, SortedLe]
  | x :: xs =>
    sortedLe_insertLe le htot htr x (orderBy le xs) (sortedLe_orderBy le htot htr xs)

theorem filter_insertLe (le : α → α → Bool) (p : α → Bool)
    (htr : ∀ a b c, le a b = true → le b c = true → le a c = true) (x : α) :
    ∀ l : List α, SortedLe le l →
      (insertLe le x l).filter p =
        if p x then insertLe le x (l.filter p) else l.filter p
  | [], _ => by
    cases h : p x <;> simp [insertLe, List.filter_cons, h]
  | y :: ys, hs => by
    have hy : ∀ z ∈ ys, le y z = true := fun z hz => (List.pairwise_cons.mp hs).1 z hz
    have hys : SortedLe le ys := (List.pairwise_cons.mp hs).2
    by_cases hxy : le x y = true
    · simp only [insertLe, hxy, if_true]
      cases hpx : p x with
      | false => simp [List.filter_cons, hpx]
      | true =>
        have hall : ∀ z ∈ (y :: ys).filter p, le x z = true := by
          intro z hz
          rcases List.mem_cons.mp (List.mem_of_mem_filter hz) with heq | hz'
          · rw [heq]; exact hxy
          · exact htr x y z hxy (hy z hz')
        rw [insertLe_eq_cons le x _ hall]
        simp [List.filter_cons, hpx]
    · simp only [insertLe, hxy, Bool.false_eq_true, if_false]
      have ih := filter_insertLe le p htr x ys hys
      cases hpy : p y with
      | true =>
        cases hpx : p x with
        | true => simp [List.filter_cons, hpy, hpx, ih, insertLe, hxy]
        | false => simp [List.filter_cons, hpy, hpx, ih]
      | false =>
        cases hpx : p x with
        | true => simp [List.filter_cons, hpy, hpx, ih]
        | false => simp [List.filter_cons, hpy, hpx, ih]

theorem filter_orderBy (le : α → α → Bool) (p : α → Bool)
    (htot : ∀ a b, le a b = true ∨ le b a = true)
    (htr : ∀ a b c, le a b = true → le b c = true → le a c = true) :
    ∀ l : List α, (orderBy le l).filter p = orderBy le (l.filter p)
  | [] => rfl
  | x :: xs => by
    have hs := sortedLe_orderBy le htot htr xs
    have h := filter_insertLe le p htr x (orderBy le xs) hs
    simp only [orderBy, h, filter_orderBy le p htot htr xs, List.filter]
    cases hpx : p x <;> simp [orderBy]

/-! ## SQL `LIKE` / `ILIKE` pattern matching -/

/-- SQL `LIKE` matching of a pattern against a string, both given as
character lists: the wildcard `%` matches any sequence of characters and
`_` matches exactly one character.  (The `LIKE` escape character is not
modelled; the repository never puts an escape in its patterns.) -/
def likeMatch : List Char → List Char → Bool
  | [], [] => true
  | [], _ :: _ => false
  | '%' :: ps, [] => likeMatch ps []
  | '%' :: ps, c :: s => likeMatch ps (c :: s) || likeMatch ('%' :: ps) s
  | '_' :: _, [] => false
  | '_' :: ps, _ :: s => likeMatch ps s
  | _ :: _, [] => false
  | c :: ps, c2 :: s => (c == c2) && likeMatch ps s
termination_by p s => p.length + s.length

/-- Embedding of `username ILIKE '%' || search_term || '%'` from
`get_nearby_profiles`: case-insensitive `LIKE` with the term wrapped in
`%` wildcards. -/
def ilikeContains (term s : String) : Bool :=
  likeMatch ((('%' :: term.data) ++ ['%']).map Char.toLower) (s.data.map Char.toLower)

/-- Case-insensitive substring containment.  This is the spec notion of
the username filter ("usernames contain the term ignoring case"); it is
the comparison point for the refinement claim about `ILIKE`, and treats
every character of the term literally. -/
def containsCaseless (term s : String) : Bool :=
  subCheck (term.data.map Char.toLower) (s.data.map Char.toLower)
where
  subCheck (t : List Char) : List Char → Bool
    | [] => t.isEmpty
    | c :: s2 => t.isPrefixOf (c :: s2) || subCheck t s2

/-! ## Data model (tables from the initial migration, `part_003`) -/

/-- A row of `public.posts`. -/
structure PostRow where
  id : Nat
  user_id : Nat
  content : String
  image_url : Option String
  location : Point
  radius_km : ℤ
  expires_at : ℚ
  created_at : ℚ
deriving DecidableEq, Repr

/-- A row of `public.profiles` (fields the queries use). -/
structure ProfileRow where
  id : Nat
  username : String
  full_name : Option String
  avatar_url : Option String
  bio : Option String
  location : Option Point
deriving DecidableEq, Repr

/-- A row of `public.friends`. -/
structure FriendRow where
  user_id : Nat
  friend_id : Nat
deriving DecidableEq, Repr

/-! ## Server query functions (supabase/migrations) -/

/-- Result row shape of `get_nearby_posts`. -/
structure NearbyPostRow where
  id : Nat
  user_id : Nat
  content : String
  image_url : Option String
  radius_km : ℤ
  distance_km : ℚ
  created_at : ℚ
  expires_at : ℚ
deriving DecidableEq, Repr

/-- The `SELECT` projection of `get_nearby_posts`: `distance_km` is
`ST_Distance(p.location, center) / 1000`. -/
def mkNearbyPostRow (dist : DistFn) (center : Point) (p : PostRow) : NearbyPostRow :=
  { id := p.id, user_id := p.user_id, content := p.content, image_url := p.image_url,
    radius_km := p.radius_km, distance_km := dist p.location center / 1000,
    created_at := p.created_at, expires_at := p.expires_at }

/-- The `WHERE` clause of `get_nearby_posts`
(migration `20251106000002_fix_distance_filter.sql`):
`expires_at > now()`, `ST_DWithin(location, center, max_km * 1000)`, and
the exact refilter `ST_Distance(location, center) / 1000 <= max_km`. -/
def nearbyPostCond (dist : DistFn) (dW : DWithinFn) (center : Point)
    (max_distance_km : ℤ) (now : ℚ) (p : PostRow) : Bool :=
  decide (now < p.expires_at) &&
    dW p.location center ((max_distance_km : ℚ) * 1000) &&
    decide (dist p.location center / 1000 ≤ (max_distance_km : ℚ))

/-- Embedding of `public.get_nearby_posts` (final version, migration
`20251106000002_fix_distance_filter.sql`).  The table contents and the
query-time `now()` are explicit arguments; results are ordered by
`created_at DESC`. -/
def get_nearby_posts (dist : DistFn) (dW : DWithinFn)
    (user_lat user_lng : ℚ) (max_distance_km : ℤ) (now : ℚ)
    (posts : List PostRow) : List NearbyPostRow :=
  orderBy (fun a b => decide (b.created_at ≤ a.created_at))
    ((posts.filter
        (nearbyPostCond dist dW ⟨user_lat, user_lng⟩ max_distance_km now)).map
      (mkNearbyPostRow dist ⟨user_lat, user_lng⟩))

/-- Result row shape of `get_friend_posts` (no distance column). -/
structure FriendPostRow where
  id : Nat
  user_id : Nat
  content : String
  image_url : Option String
  radius_km : ℤ
  created_at : ℚ
  expires_at : ℚ
deriving DecidableEq, Repr

/-- The `SELECT` projection of `get_friend_posts`. -/
def mkFriendPostRow (p : PostRow) : FriendPostRow :=
  { id := p.id, user_id := p.user_id, content := p.content, image_url := p.image_url,
    radius_km := p.radius_km, created_at := p.created_at, expires_at := p.expires_at }

/-- Embedding of `public.get_friend_posts`: posts joined against
`friends` rows `(requesting_user_id, p.user_id)` with `expires_at >
now()`, ordered by `created_at DESC`.  The `INNER JOIN` is a filter
because `friends` has `UNIQUE (user_id, friend_id)`. -/
def get_friend_posts (requesting_user_id : Nat) (now : ℚ)
    (friends : List FriendRow) (posts : List PostRow) : List FriendPostRow :=
  orderBy (fun a b => decide (b.created_at ≤ a.created_at))
    ((posts.filter (fun p =>
        friends.any (fun f => f.user_id == requesting_user_id && p.user_id == f.friend_id) &&
          decide (now < p.expires_at))).map mkFriendPostRow)

/-- Result row shape of `get_nearby_profiles`. -/
structure ProfileResult where
  id : Nat
  username : String
  full_name : Option String
  avatar_url : Option String
  distance_km : ℚ
deriving DecidableEq, Repr

/-- The `search_term IS NULL OR username ILIKE '%' || search_term || '%'`
disjunct of `get_nearby_profiles`. -/
def termCond (search_term : Option String) (username : String) : Bool :=
  match search_term with
  | none => true
  | some t => ilikeContains t username

/-- One candidate row of `get_nearby_profiles`: `none` when the profile
fails the `WHERE` clause (`location IS NOT NULL`, `id != auth.uid()`,
`ST_DWithin`, and the optional `ILIKE` username filter). -/
def nearbyProfileRow (dist : DistFn) (dW : DWithinFn) (caller : Nat)
    (center : Point) (max_distance_km : ℤ) (search_term : Option String)
    (p : ProfileRow) : Option ProfileResult :=
  p.location.bind fun loc =>
    if decide (p.id ≠ caller) && dW loc center ((max_distance_km : ℚ) * 1000) &&
        termCond search_term p.username then
      some { id := p.id, username := p.username, full_name := p.full_name,
             avatar_url := p.avatar_url, distance_km := dist loc center / 1000 }
    else
      none

/-- Embedding of `public.get_nearby_profiles` (migration
`20251103171202`), the friend-search query: ordered by `distance_km`
ascending; `caller` is `auth.uid()`. -/
def get_nearby_profiles (dist : DistFn) (dW : DWithinFn) (caller : Nat)
    (user_lat user_lng : ℚ) (max_distance_km : ℤ) (search_term : Option String)
    (profiles : List ProfileRow) : List ProfileResult :=
  orderBy (fun a b => decide (a.distance_km ≤ b.distance_km))
    (profiles.filterMap
      (nearbyProfileRow dist dW caller ⟨user_lat, user_lng⟩ max_distance_km search_term))

/-- Result row shape of `get_nearby_users` (map view). -/
structure NearbyUserRow where
  id : Nat
  username : String
  avatar_url : Option String
  bio : Option String
  latitude : ℚ
  longitude : ℚ
  distance_km : ℚ
deriving DecidableEq, Repr

/-- One candidate row of `get_nearby_users`: `WHERE location IS NOT NULL
AND id != auth.uid() AND ST_DWithin(...)`; `latitude`/`longitude` are
`ST_Y`/`ST_X` of the stored point. -/
def nearbyUserRow (dist : DistFn) (dW : DWithinFn) (caller : Nat)
    (center : Point) (max_distance_km : ℚ) (p : ProfileRow) : Option NearbyUserRow :=
  p.location.bind fun loc =>
    if decide (p.id ≠ caller) && dW loc center (max_distance_km * 1000) then
      some { id := p.id, username := p.username, avatar_url := p.avatar_url,
             bio := p.bio, latitude := loc.lat, longitude := loc.lng,
             distance_km := dist loc center / 1000 }
    else
      none

/-- Embedding of `get_nearby_users` (migration `20251105155838`): note
its radius parameter is `DOUBLE PRECISION`, hence `ℚ` here; ordered by
`distance_km` ascending. -/
def get_nearby_users (dist : DistFn) (dW : DWithinFn) (caller : Nat)
    (user_lat user_lng : ℚ) (max_distance_km : ℚ)
    (profiles : List ProfileRow) : List NearbyUserRow :=
  orderBy (fun a b => decide (a.distance_km ≤ b.distance_km))
    (profiles.filterMap
      (nearbyUserRow dist dW caller ⟨user_lat, user_lng⟩ max_distance_km))

/-- Modelled from the spec: the `cleanup_expired_posts` edge function
(README "Edge Function" section; spec section 4.3) is not present under
`src/`.  Per the spec it removes rows where `expires_at <= now() -
grace`; the surviving table keeps exactly the rows with `expires_at >
sweepNow - grace`. -/
def cleanup_expired_posts (sweepNow grace : ℚ) (posts : List PostRow) : List PostRow :=
  posts.filter (fun p => decide (sweepNow - grace < p.expires_at))

/-! ## Client: feed reconciliation (`src/pages/Feed.tsx`) -/

/-- A raw nearby-post item as the client sees it in the RPC response.
`distance_km` is `some d` when the JSON field is present, a number, and
not `NaN` (the `typeof p.distance_km === "number" &&
!Number.isNaN(p.distance_km)` check), and `none` otherwise. -/
structure ServerFeedPost where
  id : Nat
  distance_km : Option ℚ
deriving DecidableEq, Repr

/-- Embedding of the safety-net refilter in `Feed.tsx` (`postsQuery`,
nearby branch): keep an item only when its `distance_km` is a real
number and at most the selected radius. -/
def feedClientFilter (selectedKm : ℤ) (raw : List ServerFeedPost) : List ServerFeedPost :=
  raw.filter (fun p =>
    match p.distance_km with
    | some d => decide (d ≤ (selectedKm : ℚ))
    | none => false)

/-! ## Client: location tracker (`src/hooks/useDeviceLocation.tsx`) -/

/-- A position fix as delivered by the transport (browser or Capacitor
watch callback).  The transport carries a capture timestamp
(`pos.timestamp`); the hook reads only `pos.coords`. -/
structure Fix where
  lat : ℚ
  lng : ℚ
  capturedAt : ℚ
deriving DecidableEq, Repr

/-- The state of one `useDeviceLocation` instance: the `location`,
`isLoading` and `error` React states, plus the `localStorage` last-known
cache written by `storeLocation`. -/
structure TrackerState where
  location : Option Point
  isLoading : Bool
  error : Option String
  stored : Option Point
deriving DecidableEq, Repr

/-- Embedding of `applyLocation`: store the new point, persist it, and
clear the error. -/
def applyLocation (s : TrackerState) (loc : Point) : TrackerState :=
  { s with location := some loc, stored := some loc, error := none }

/-- Embedding of a watch callback delivering a fix: the hook reads
`pos.coords.latitude`/`longitude` only — `capturedAt` is dropped — and
calls `applyLocation`. -/
def onWatchUpdate (s : TrackerState) (f : Fix) : TrackerState :=
  applyLocation s ⟨f.lat, f.lng⟩

/-- A sequence of watch callbacks delivered to one tracker instance, in
arrival order. -/
def processUpdates (s : TrackerState) (updates : List Fix) : TrackerState :=
  updates.foldl onWatchUpdate s

/-- Error message thrown when the native permission request is denied. -/
def permissionDeniedMsg : String := "Location permission denied"

/-- Error message when the web backend is missing the geolocation API. -/
def unsupportedMsg : String := "Geolocation not supported"

/-- Embedding of `resolveCurrentLocation`: the acquisition outcome is
`.ok loc` when the chosen backend resolved a position and `.error msg`
when it rejected (permission denied, acquisition timeout, unsupported
platform).  On success the location is applied; on failure only the
error state is set; `isLoading` is cleared on both paths. -/
def resolveCurrentLocation (s : TrackerState) (outcome : Except String Point) :
    TrackerState :=
  match outcome with
  | .ok loc => { applyLocation { s with isLoading := true } loc with isLoading := false }
  | .error msg => { s with isLoading := false, error := some msg }

/-! ## Client: post creation (`src/components/CreatePost.tsx`) -/

/-- The fixed post lifetime: `CreatePost.tsx` hard-codes
`expiresAt.setHours(expiresAt.getHours() + 24)`.  Times are in hours. -/
def postTtlHours : ℚ := 24

/-- Embedding of the insert built in `handleSubmit` combined with the
`posts` table defaults: the client supplies `expires_at` computed from
its own clock (`clientNow + 24h`); the database stamps `created_at =
now()` (its own clock, `serverNow`) and generates the id; `radius_km`
is omitted by the client, so the column default `5` applies. -/
def createPost (newId : Nat) (clientNow serverNow : ℚ) (userId : Nat)
    (content : String) (imageUrl : Option String) (loc : Point) : PostRow :=
  { id := newId, user_id := userId, content := content, image_url := imageUrl,
    location := loc, radius_km := 5,
    expires_at := clientNow + postTtlHours, created_at := serverNow }

/-! ## Concrete fixtures used by witnesses -/

/-- A degenerate distance oracle: everything is 0 meters apart. -/
def distZero : DistFn := fun _ _ => 0

/-- A degenerate bounding check that admits every candidate. -/
def dWTrue : DWithinFn := fun _ _ _ => true

/-- A sample post at the origin, created at time 0, expiring at 24. -/
def samplePost : PostRow :=
  { id := 1, user_id := 2, content := "hi", image_url := none,
    location := ⟨0, 0⟩, radius_km := 5, expires_at := 24, created_at := 0 }

/-- A sample profile with a shared location. -/
def sampleProfile : ProfileRow :=
  { id := 1, username := "alice", full_name := none, avatar_url := none,
    bio := none, location := some ⟨0, 0⟩ }

/-! ## Query membership characterizations -/

theorem mem_get_nearby_posts (dist : DistFn) (dW : DWithinFn)
    (lat lng : ℚ) (r : ℤ) (now : ℚ) (posts : List PostRow) (row : NearbyPostRow) :
    row ∈ get_nearby_posts dist dW lat lng r now posts ↔
      ∃ p, p ∈ posts ∧ nearbyPostCond dist dW ⟨lat, lng⟩ r now p = true ∧
        row = mkNearbyPostRow dist ⟨lat, lng⟩ p := by
  simp only [get_nearby_posts, mem_orderBy, List.mem_map, List.mem_filter]
  constructor
  · rintro ⟨p, ⟨hp, hc⟩, heq⟩
    exact ⟨p, hp, hc, heq.symm⟩
  · rintro ⟨p, hp, hc, heq⟩
    exact ⟨p, ⟨hp, hc⟩, heq.symm⟩

theorem mem_get_friend_posts (requesting_user_id : Nat) (now : ℚ)
    (friends : List FriendRow) (posts : List PostRow) (row : FriendPostRow) :
    row ∈ get_friend_posts requesting_user_id now friends posts ↔
      ∃ p, p ∈ posts ∧
        friends.any (fun f => f.user_id == requesting_user_id && p.user_id == f.friend_id) = true ∧
        now < p.expires_at ∧ row = mkFriendPostRow p := by
  simp only [get_friend_posts, mem_orderBy, List.mem_map, List.mem_filter,
    Bool.and_eq_true, decide_eq_true_eq]
  constructor
  · rintro ⟨p, ⟨hp, hf, hn⟩, heq⟩
    exact ⟨p, hp, hf, hn, heq.symm⟩
  · rintro ⟨p, hp, hf, hn, heq⟩
    exact ⟨p, ⟨hp, hf, hn⟩, heq.symm⟩

theorem nearbyUserRow_eq_some (dist : DistFn) (dW : DWithinFn) (caller : Nat)
    (center : Point) (rkm : ℚ) (p : ProfileRow) (row : NearbyUserRow) :
    nearbyUserRow dist dW caller center rkm p = some row ↔
      ∃ loc, p.location = some loc ∧
        (decide (p.id ≠ caller) && dW loc center (rkm * 1000)) = true ∧
        row = { id := p.id, username := p.username, avatar_url := p.avatar_url,
                bio := p.bio, latitude := loc.lat, longitude := loc.lng,
                distance_km := dist loc center / 1000 } := by
  cases hloc : p.location with
  | none => simp [nearbyUserRow, hloc]
  | some loc =>
    simp only [nearbyUserRow, hloc, Option.some_bind]
    split_ifs with h
    · simp only [Option.some.injEq]
      constructor
      · intro heq; exact ⟨loc, rfl, h, heq.symm⟩
      · rintro ⟨loc', hl, -, heq⟩
        cases hl
        exact heq.symm
    · constructor
      · intro hfalse; exact absurd hfalse (by simp)
      · rintro ⟨loc', hl, hcond, -⟩
        cases hl
        exact absurd hcond h

theorem nearbyProfileRow_eq_some (dist : DistFn) (dW : DWithinFn) (caller : Nat)
    (center : Point) (rkm : ℤ) (term : Option String) (p : ProfileRow)
    (row : ProfileResult) :
    nearbyProfileRow dist dW caller center rkm term p = some row ↔
      ∃ loc, p.location = some loc ∧
        (decide (p.id ≠ caller) && dW loc center ((rkm : ℚ) * 1000) &&
          termCond term p.username) = true ∧
        row = { id := p.id, username := p.username, full_name := p.full_name,
                avatar_url := p.avatar_url, distance_km := dist loc center / 1000 } := by
  cases hloc : p.location with
  | none => simp [nearbyProfileRow, hloc]
  | some loc =>
    simp only [nearbyProfileRow, hloc, Option.some_bind]
    split_ifs with h
    · simp only [Option.some.injEq]
      constructor
      · intro heq; exact ⟨loc, rfl, h, heq.symm⟩
      · rintro ⟨loc', hl, -, heq⟩
        cases hl
        exact heq.symm
    · constructor
      · intro hfalse; exact absurd hfalse (by simp)
      · rintro ⟨loc', hl, hcond, -⟩
        cases hl
        exact absurd hcond h

theorem mem_get_nearby_users (dist : DistFn) (dW : DWithinFn) (caller : Nat)
    (lat lng : ℚ) (rkm : ℚ) (profiles : List ProfileRow) (row : NearbyUserRow) :
    row ∈ get_nearby_users dist dW caller lat lng rkm profiles ↔
      ∃ p, p ∈ profiles ∧ nearbyUserRow dist dW caller ⟨lat, lng⟩ rkm p = some row := by
  simp only [get_nearby_users, mem_orderBy, List.mem_filterMap]

theorem mem_get_nearby_profiles (dist : DistFn) (dW : DWithinFn) (caller : Nat)
    (lat lng : ℚ) (rkm : ℤ) (term : Option String) (profiles : List ProfileRow)
    (row : ProfileResult) :
    row ∈ get_nearby_profiles dist dW caller lat lng rkm term profiles ↔
      ∃ p, p ∈ profiles ∧
        nearbyProfileRow dist dW caller ⟨lat, lng⟩ rkm term p = some row := by
  simp only [get_nearby_profiles, mem_orderBy, List.mem_filterMap]

/-! ## Claims -/

/-- Claim C1: every result returned by `get_nearby_posts` comes from a
stored post whose distance to the center (per the exact `ST_Distance`
refilter, in km) is at most the requested radius and whose `expires_at`
is strictly later than `now()` at query time. -/
theorem c1_nearby_posts_within_radius_unexpired
    (dist : DistFn) (dW : DWithinFn) (lat lng : ℚ) (r : ℤ) (now : ℚ)
    (posts : List PostRow) (row : NearbyPostRow)
    (hrow : row ∈ get_nearby_posts dist dW lat lng r now posts) :
    ∃ p ∈ posts, row = mkNearbyPostRow dist ⟨lat, lng⟩ p ∧
      dist p.location ⟨lat, lng⟩ / 1000 ≤ (r : ℚ) ∧ now < p.expires_at := by
  unfold get_nearby_posts at hrow
  rw [mem_orderBy] at hrow
  simp only [List.mem_map, List.mem_filter, nearbyPostCond, Bool.and_eq_true,
    decide_eq_true_eq] at hrow
  obtain ⟨p, ⟨hp, ⟨hnow, _⟩, hdist⟩, rfl⟩ := hrow
  exact ⟨p, hp, rfl, hdist, hnow⟩

theorem c1_witness :
    ∃ p ∈ [samplePost], mkNearbyPostRow distZero ⟨0, 0⟩ samplePost =
        mkNearbyPostRow distZero ⟨0, 0⟩ p ∧
      distZero p.location ⟨0, 0⟩ / 1000 ≤ ((10 : ℤ) : ℚ) ∧ (0 : ℚ) < p.expires_at :=
  c1_nearby_posts_within_radius_unexpired distZero dWTrue 0 0 10 0 [samplePost]
    (mkNearbyPostRow distZero ⟨0, 0⟩ samplePost)
    (by norm_num [get_nearby_posts, orderBy, insertLe, nearbyPostCond, samplePost,
      distZero, dWTrue])

/-- Every row returned by `get_nearby_posts` is unexpired at query time —
the `WHERE expires_at > now()` conjunct, seen on the returned row. -/
theorem nearby_rows_unexpired (dist : DistFn) (dW : DWithinFn)
    (lat lng : ℚ) (r : ℤ) (now : ℚ) (posts : List PostRow) :
    ∀ row ∈ get_nearby_posts dist dW lat lng r now posts, now < row.expires_at := by
  intro row hrow
  obtain ⟨q, -, hcond, heq⟩ := (mem_get_nearby_posts _ _ _ _ _ _ _ _).mp hrow
  simp only [nearbyPostCond, Bool.and_eq_true, decide_eq_true_eq] at hcond
  rw [heq]
  exact hcond.1.1

/-- Every row returned by `get_friend_posts` is unexpired at query time. -/
theorem friend_rows_unexpired (uid : Nat) (now : ℚ)
    (friends : List FriendRow) (posts : List PostRow) :
    ∀ row ∈ get_friend_posts uid now friends posts, now < row.expires_at := by
  intro row hrow
  obtain ⟨q, -, -, hnow, heq⟩ := (mem_get_friend_posts _ _ _ _ _).mp hrow
  rw [heq]
  exact hnow

/-- Claim C2: a post created at `T` with `expires_at = T + Δ` that meets
the spatial filter (resp. the friendship join) is returned by the nearby
query (resp. friends query) at every `t` with `T ≤ t < T + Δ`, even
after the sweep has run at any earlier time `s`; it is returned by no
query at `t2 ≥ T + Δ`; and, purged or not, no query ever returns a row
with `expires_at ≤ now()`. -/
theorem c2_expiry_invariant
    (dist : DistFn) (dW : DWithinFn) (lat lng : ℚ) (r : ℤ)
    (p : PostRow) (posts : List PostRow) (friends : List FriendRow)
    (uid : Nat) (T Δ t t2 s grace : ℚ)
    (hp : p ∈ posts)
    (hcreated : p.created_at = T)
    (hexpires : p.expires_at = T + Δ)
    (ht1 : T ≤ t) (ht2 : t < T + Δ)
    (ht3 : T + Δ ≤ t2)
    (hs : s ≤ t) (hgrace : 0 ≤ grace)
    (hdw : dW p.location ⟨lat, lng⟩ ((r : ℚ) * 1000) = true)
    (hdist : dist p.location ⟨lat, lng⟩ / 1000 ≤ (r : ℚ))
    (hf : (⟨uid, p.user_id⟩ : FriendRow) ∈ friends) :
    (∀ row ∈ get_nearby_posts dist dW lat lng r t posts, t < row.expires_at) ∧
    (∀ row ∈ get_friend_posts uid t friends posts, t < row.expires_at) ∧
    mkNearbyPostRow dist ⟨lat, lng⟩ p ∈
      get_nearby_posts dist dW lat lng r t (cleanup_expired_posts s grace posts) ∧
    mkFriendPostRow p ∈
      get_friend_posts uid t friends (cleanup_expired_posts s grace posts) ∧
    mkNearbyPostRow dist ⟨lat, lng⟩ p ∉ get_nearby_posts dist dW lat lng r t2 posts ∧
    mkFriendPostRow p ∉ get_friend_posts uid t2 friends posts := by
  have hlive : t < p.expires_at := by rw [hexpires]; exact ht2
  have hsweep : p ∈ cleanup_expired_posts s grace posts := by
    rw [cleanup_expired_posts, List.mem_filter]
    refine ⟨hp, decide_eq_true ?_⟩
    rw [hexpires]
    linarith
  have hjoin :
      friends.any (fun f => f.user_id == uid && p.user_id == f.friend_id) = true :=
    List.any_eq_true.mpr ⟨⟨uid, p.user_id⟩, hf, by simp⟩
  refine ⟨nearby_rows_unexpired dist dW lat lng r t posts,
    friend_rows_unexpired uid t friends posts, ?_, ?_, ?_, ?_⟩
  · exact (mem_get_nearby_posts _ _ _ _ _ _ _ _).mpr
      ⟨p, hsweep, by simp [nearbyPostCond, hdw, hdist, hlive], rfl⟩
  · exact (mem_get_friend_posts _ _ _ _ _).mpr ⟨p, hsweep, hjoin, hlive, rfl⟩
  · intro hmem
    have := nearby_rows_unexpired dist dW lat lng r t2 posts _ hmem
    have hx : t2 < p.expires_at := this
    rw [hexpires] at hx
    linarith
  · intro hmem
    have := friend_rows_unexpired uid t2 friends posts _ hmem
    have hx : t2 < p.expires_at := this
    rw [hexpires] at hx
    linarith

theorem c2_witness :
    (∀ row ∈ get_nearby_posts distZero dWTrue 0 0 10 1 [samplePost],
      (1 : ℚ) < row.expires_at) ∧
    (∀ row ∈ get_friend_posts 7 1 [⟨7, 2⟩] [samplePost], (1 : ℚ) < row.expires_at) ∧
    mkNearbyPostRow distZero ⟨0, 0⟩ samplePost ∈
      get_nearby_posts distZero dWTrue 0 0 10 1 (cleanup_expired_posts 1 1 [samplePost]) ∧
    mkFriendPostRow samplePost ∈
      get_friend_posts 7 1 [⟨7, 2⟩] (cleanup_expired_posts 1 1 [samplePost]) ∧
    mkNearbyPostRow distZero ⟨0, 0⟩ samplePost ∉
      get_nearby_posts distZero dWTrue 0 0 10 24 [samplePost] ∧
    mkFriendPostRow samplePost ∉ get_friend_posts 7 24 [⟨7, 2⟩] [samplePost] :=
  c2_expiry_invariant distZero dWTrue 0 0 10 samplePost [samplePost] [⟨7, 2⟩] 7
    0 24 1 24 1 1
    (by simp) rfl (by norm_num [samplePost]) (by norm_num) (by norm_num)
    (by norm_num) (by norm_num) (by norm_num) rfl
    (by norm_num [distZero]) (by norm_num [samplePost])

/-- Claim C9: when location acquisition fails — permission denied,
acquisition timeout, or unsupported platform — the tracker records the
error message and leaves both the in-memory location and the persisted
last-known location unchanged (never cleared), with loading ended. -/
theorem c9_failure_retains_location (s : TrackerState) (msg : String) :
    (resolveCurrentLocation s (.error msg)).location = s.location ∧
    (resolveCurrentLocation s (.error msg)).stored = s.stored ∧
    (resolveCurrentLocation s (.error msg)).error = some msg ∧
    (resolveCurrentLocation s (.error msg)).isLoading = false := by
  simp [resolveCurrentLocation]

/-- Claim C3: the Feed safety-net refilter keeps only items whose
`distance_km` is an actual number at most the selected radius, whatever
list the server returned. -/
theorem c3_client_refilter_bound (selectedKm : ℤ) (raw : List ServerFeedPost)
    (p : ServerFeedPost) (hp : p ∈ feedClientFilter selectedKm raw) :
    ∃ d, p.distance_km = some d ∧ d ≤ (selectedKm : ℚ) := by
  rw [feedClientFilter, List.mem_filter] at hp
  obtain ⟨-, hcond⟩ := hp
  cases hd : p.distance_km with
  | none => rw [hd] at hcond; simp at hcond
  | some d =>
    rw [hd] at hcond
    exact ⟨d, rfl, by simpa using hcond⟩

theorem c3_witness :
    ∃ d, (⟨1, some 3⟩ : ServerFeedPost).distance_km = some d ∧ d ≤ ((10 : ℤ) : ℚ) :=
  c3_client_refilter_bound 10 [⟨1, some 3⟩] ⟨1, some 3⟩
    (by norm_num [feedClientFilter])

/-- Claim C7: both user-proximity queries exclude the querying identity:
every returned row has `id ≠ caller`. -/
theorem c7_excludes_caller (dist : DistFn) (dW : DWithinFn) (caller : Nat)
    (lat lng : ℚ) (ru : ℚ) (rp : ℤ) (term : Option String)
    (profiles : List ProfileRow) :
    (∀ r ∈ get_nearby_users dist dW caller lat lng ru profiles, r.id ≠ caller) ∧
    (∀ r ∈ get_nearby_profiles dist dW caller lat lng rp term profiles, r.id ≠ caller) := by
  constructor
  · intro r hr
    obtain ⟨p, -, hsome⟩ := (mem_get_nearby_users _ _ _ _ _ _ _ _).mp hr
    obtain ⟨loc, -, hcond, heq⟩ := (nearbyUserRow_eq_some _ _ _ _ _ _ _).mp hsome
    have hne : p.id ≠ caller := by
      simpa using (Bool.and_eq_true _ _ |>.mp hcond).1
    rw [heq]
    exact hne
  · intro r hr
    obtain ⟨p, -, hsome⟩ := (mem_get_nearby_profiles _ _ _ _ _ _ _ _ _).mp hr
    obtain ⟨loc, -, hcond, heq⟩ := (nearbyProfileRow_eq_some _ _ _ _ _ _ _ _).mp hsome
    have hne : p.id ≠ caller := by
      simpa using (Bool.and_eq_true _ _ |>.mp ((Bool.and_eq_true _ _ |>.mp hcond).1)).1
    rw [heq]
    exact hne

theorem c7_witness :
    ({ id := 1, username := "alice", avatar_url := none, bio := none,
       latitude := 0, longitude := 0, distance_km := distZero ⟨0, 0⟩ ⟨0, 0⟩ / 1000 } :
      NearbyUserRow).id ≠ 0 :=
  (c7_excludes_caller distZero dWTrue 0 0 0 10 10 none [sampleProfile]).1 _
    (by norm_num [get_nearby_users, orderBy, insertLe, nearbyUserRow, sampleProfile,
      distZero, dWTrue])

/-- Claim C10: both user-proximity queries only ever return rows derived
from profiles whose `location` column is non-null; a profile that never
shared a location cannot appear. -/
theorem c10_only_located_profiles (dist : DistFn) (dW : DWithinFn) (caller : Nat)
    (lat lng : ℚ) (ru : ℚ) (rp : ℤ) (term : Option String)
    (profiles : List ProfileRow) :
    (∀ r ∈ get_nearby_users dist dW caller lat lng ru profiles,
      ∃ p ∈ profiles, p.id = r.id ∧ p.location ≠ none) ∧
    (∀ r ∈ get_nearby_profiles dist dW caller lat lng rp term profiles,
      ∃ p ∈ profiles, p.id = r.id ∧ p.location ≠ none) := by
  constructor
  · intro r hr
    obtain ⟨p, hp, hsome⟩ := (mem_get_nearby_users _ _ _ _ _ _ _ _).mp hr
    obtain ⟨loc, hloc, -, heq⟩ := (nearbyUserRow_eq_some _ _ _ _ _ _ _).mp hsome
    exact ⟨p, hp, by rw [heq], by simp [hloc]⟩
  · intro r hr
    obtain ⟨p, hp, hsome⟩ := (mem_get_nearby_profiles _ _ _ _ _ _ _ _ _).mp hr
    obtain ⟨loc, hloc, -, heq⟩ := (nearbyProfileRow_eq_some _ _ _ _ _ _ _ _).mp hsome
    exact ⟨p, hp, by rw [heq], by simp [hloc]⟩

theorem c10_witness :
    ∃ p ∈ [sampleProfile],
      p.id = ({ id := 1, username := "alice", avatar_url := none, bio := none,
                latitude := 0, longitude := 0,
                distance_km := distZero ⟨0, 0⟩ ⟨0, 0⟩ / 1000 } : NearbyUserRow).id ∧
      p.location ≠ none :=
  (c10_only_located_profiles distZero dWTrue 0 0 0 10 10 none [sampleProfile]).1 _
    (by norm_num [get_nearby_users, orderBy, insertLe, nearbyUserRow, sampleProfile,
      distZero, dWTrue])

/-- The clamp into `[lo, hi]` that the spec asserts the query functions
apply to the client-supplied radius.  (Stated from the spec for the
refinement comparison; the SQL functions contain no such operation.) -/
def clampRadius (lo hi r : ℤ) : ℤ := max lo (min hi r)

/-- Claim C4 as stated is false at a concrete input: `get_nearby_posts`
does not clamp the radius server-side.  With radius `-5` it returns
nothing even for an unexpired post at distance 0 from the center, while
the clamped radius `max 1 (min 100 (-5)) = 1` would return that post; so
an out-of-range radius does not behave as the nearest bound. -/
theorem c4_counterexample :
    get_nearby_posts distZero (exactDWithin distZero) 0 0 (-5) 0 [samplePost] ≠
      get_nearby_posts distZero (exactDWithin distZero) 0 0
        (clampRadius 1 100 (-5)) 0 [samplePost] := by
  have h1 : clampRadius 1 100 (-5) = 1 := by norm_num [clampRadius]
  rw [h1]
  norm_num [get_nearby_posts, orderBy, insertLe, nearbyPostCond, exactDWithin,
    distZero, samplePost, List.filter]

/-- Claim C4 amended: the query functions apply the client-supplied
radius unchanged — there is no server-side clamp (the 1–100 km and
1–60 km bounds exist only in the client UI).  In particular, for any
nonnegative distance oracle under the exact `ST_DWithin` semantics, a
negative radius makes both the nearby-posts query and the friend-search
query return the empty list rather than behaving as the nearest bound. -/
theorem c4_no_server_clamp (dist : DistFn) (hnn : ∀ a b, 0 ≤ dist a b)
    (lat lng : ℚ) (rposts rprofiles : ℤ) (now : ℚ) (caller : Nat)
    (term : Option String) (posts : List PostRow) (profiles : List ProfileRow)
    (hrp : rposts < 0) (hru : rprofiles < 0) :
    get_nearby_posts dist (exactDWithin dist) lat lng rposts now posts = [] ∧
    get_nearby_profiles dist (exactDWithin dist) caller lat lng rprofiles term
      profiles = [] := by
  constructor
  · rw [get_nearby_posts]
    have hf : posts.filter
        (nearbyPostCond dist (exactDWithin dist) ⟨lat, lng⟩ rposts now) = [] := by
      rw [List.filter_eq_nil_iff]
      intro p _
      simp only [nearbyPostCond, exactDWithin, Bool.and_eq_true, decide_eq_true_eq,
        not_and]
      intro _ habs
      have h0 : (0 : ℚ) ≤ dist p.location ⟨lat, lng⟩ := hnn _ _
      have hneg : ((rposts : ℚ)) * 1000 < 0 := by
        have : (rposts : ℚ) < 0 := by exact_mod_cast hrp
        nlinarith
      linarith
    rw [hf]
    rfl
  · rw [get_nearby_profiles]
    have hf : profiles.filterMap
        (nearbyProfileRow dist (exactDWithin dist) caller ⟨lat, lng⟩ rprofiles
          term) = [] := by
      rw [List.filterMap_eq_nil_iff]
      intro p _
      cases hloc : p.location with
      | none => simp [nearbyProfileRow, hloc]
      | some loc =>
        have hcond : exactDWithin dist loc ⟨lat, lng⟩ ((rprofiles : ℚ) * 1000) = false := by
          rw [exactDWithin, decide_eq_false_iff_not]
          have h0 : (0 : ℚ) ≤ dist loc ⟨lat, lng⟩ := hnn _ _
          have hneg : ((rprofiles : ℚ)) * 1000 < 0 := by
            have : (rprofiles : ℚ) < 0 := by exact_mod_cast hru
            nlinarith
          intro hle
          linarith
        simp [nearbyProfileRow, hloc, hcond]
    rw [hf]
    rfl

theorem c4_witness :
    get_nearby_posts distZero (exactDWithin distZero) 0 0 (-5) 0 [samplePost] = [] ∧
    get_nearby_profiles distZero (exactDWithin distZero) 0 0 0 (-5) none
      [sampleProfile] = [] :=
  c4_no_server_clamp distZero (fun _ _ => le_refl 0) 0 0 (-5) (-5) 0 0 none
    [samplePost] [sampleProfile] (by norm_num) (by norm_num)

/-- Claim C5 as stated is false at a concrete input: `expires_at` is
computed from the client clock (`new Date()` plus 24 hours) and supplied
in the insert payload, while `created_at` is stamped by the database
default `now()`.  With client clock 0 and database clock 7 the created
post has `expires_at = 24 ≠ created_at + 24 = 31`, so a created post can
have an `expires_at` other than its creation time plus the fixed TTL. -/
theorem c5_counterexample :
    (createPost 1 0 7 2 "hi" none ⟨0, 0⟩).expires_at ≠
      (createPost 1 0 7 2 "hi" none ⟨0, 0⟩).created_at + postTtlHours := by
  norm_num [createPost, postTtlHours]

/-- Claim C5 amended: post creation stamps `expires_at = clientNow + 24h`
where the 24-hour TTL is a fixed constant in `CreatePost.tsx` (not a
caller input) and `created_at = now()` on the database clock; the
claimed relation `expires_at = created_at + TTL` holds exactly when the
client and database clocks agree, and nothing in the store enforces it
otherwise. -/
theorem c5_expiry_stamp_client_clock (newId : Nat) (clientNow serverNow : ℚ)
    (userId : Nat) (content : String) (imageUrl : Option String) (loc : Point) :
    (createPost newId clientNow serverNow userId content imageUrl loc).expires_at =
      clientNow + postTtlHours ∧
    (createPost newId clientNow serverNow userId content imageUrl loc).created_at =
      serverNow ∧
    (clientNow = serverNow →
      (createPost newId clientNow serverNow userId content imageUrl loc).expires_at =
        (createPost newId clientNow serverNow userId content imageUrl loc).created_at +
          postTtlHours) := by
  refine ⟨rfl, rfl, ?_⟩
  intro h
  simp [createPost, h]

theorem c5_witness :
    (createPost 1 5 5 2 "hi" none ⟨0, 0⟩).expires_at =
      (createPost 1 5 5 2 "hi" none ⟨0, 0⟩).created_at + postTtlHours :=
  (c5_expiry_stamp_client_clock 1 5 5 2 "hi" none ⟨0, 0⟩).2.2 rfl

/-- A fix captured later but delivered first. -/
def freshFix : Fix := ⟨1, 1, 2⟩

/-- A fix captured earlier but delivered second (reordered transport). -/
def staleFix : Fix := ⟨0, 0, 1⟩

/-- The tracker state before any fix arrives. -/
def initTracker : TrackerState := ⟨none, true, none, none⟩

/-- Claim C6 as stated is false at a concrete input: the tracker keeps no
`capturedAt` at all and `applyLocation` overwrites unconditionally, so
when a stale fix (capturedAt 1) is delivered after a fresher one
(capturedAt 2), the stale coordinates are applied, not discarded. -/
theorem c6_counterexample :
    staleFix.capturedAt < freshFix.capturedAt ∧
    (processUpdates initTracker [freshFix, staleFix]).location =
      some ⟨staleFix.lat, staleFix.lng⟩ ∧
    (processUpdates initTracker [freshFix, staleFix]).location ≠
      some ⟨freshFix.lat, freshFix.lng⟩ := by
  refine ⟨by norm_num [staleFix, freshFix], rfl, ?_⟩
  simp [processUpdates, onWatchUpdate, applyLocation, initTracker, staleFix, freshFix]

/-- Claim C6 amended: position updates are applied in arrival order with
no staleness check — the delivered timestamp is ignored (the stored
`LocationPoint` has no `capturedAt` field), so after any nonempty burst
of callbacks the tracker holds the coordinates of the last-delivered
fix, even if that fix is the oldest by capture time. -/
theorem c6_last_update_wins (s : TrackerState) (us : List Fix) (u : Fix)
    (h : us.getLast? = some u) :
    (processUpdates s us).location = some ⟨u.lat, u.lng⟩ := by
  induction us generalizing s with
  | nil => simp at h
  | cons a as ih =>
    cases as with
    | nil =>
      simp only [List.getLast?_singleton, Option.some.injEq] at h
      subst h
      rfl
    | cons b bs =>
      rw [List.getLast?_cons_cons] at h
      exact ih (onWatchUpdate s a) h

theorem c6_witness :
    (processUpdates initTracker [freshFix, staleFix]).location =
      some ⟨staleFix.lat, staleFix.lng⟩ :=
  c6_last_update_wins initTracker [freshFix, staleFix] staleFix rfl

/-- The `ORDER BY distance_km` comparator is total. -/
theorem profileLe_total (a b : ProfileResult) :
    (decide (a.distance_km ≤ b.distance_km)) = true ∨
      (decide (b.distance_km ≤ a.distance_km)) = true := by
  simpa [decide_eq_true_eq] using le_total a.distance_km b.distance_km

/-- The `ORDER BY distance_km` comparator is transitive. -/
theorem profileLe_trans (a b c : ProfileResult)
    (hab : (decide (a.distance_km ≤ b.distance_km)) = true)
    (hbc : (decide (b.distance_km ≤ c.distance_km)) = true) :
    (decide (a.distance_km ≤ c.distance_km)) = true := by
  simp only [decide_eq_true_eq] at *
  exact le_trans hab hbc

/-- Adding the `ILIKE` conjunct to the candidate scan is the same as
filtering the unrestricted candidates by `ILIKE` on the projected
username. -/
theorem filterMap_term_eq_filter (dist : DistFn) (dW : DWithinFn) (caller : Nat)
    (center : Point) (rkm : ℤ) (term : String) :
    ∀ profiles : List ProfileRow,
      profiles.filterMap (nearbyProfileRow dist dW caller center rkm (some term)) =
        (profiles.filterMap (nearbyProfileRow dist dW caller center rkm none)).filter
          (fun row => ilikeContains term row.username)
  | [] => rfl
  | p :: ps => by
    have ih := filterMap_term_eq_filter dist dW caller center rkm term ps
    simp only [List.filterMap_cons]
    cases hloc : p.location with
    | none => simp [nearbyProfileRow, hloc, ih]
    | some loc =>
      simp only [nearbyProfileRow, hloc, Option.some_bind]
      by_cases hbase :
          (decide (p.id ≠ caller) && dW loc center ((rkm : ℚ) * 1000)) = true
      · by_cases hterm : ilikeContains term p.username = true
        · rw [if_pos (by rw [hbase]; simp [termCond, hterm]),
            if_pos (by rw [hbase]; simp [termCond])]
          simp [ih, List.filter_cons, hterm]
        · rw [if_neg (by simp [termCond, hterm]),
            if_pos (by rw [hbase]; simp [termCond])]
          simp [ih, List.filter_cons, hterm]
      · rw [Bool.not_eq_true] at hbase
        rw [if_neg (by simp only [hbase, Bool.false_and]; exact Bool.false_ne_true),
          if_neg (by simp only [hbase, Bool.false_and]; exact Bool.false_ne_true)]
        exact ih

/-- Claim C8 as stated is false at a concrete input: the `ILIKE` pattern
is built by gluing the raw term between `%` wildcards, so wildcard
characters inside the term are interpreted, not literal.  With term
`"_"` (one-character wildcard) the profile `alice` is returned, yet
`"_"` is not a substring of `"alice"` ignoring case, so the result with
the term is not the substring-filtered subset of the no-term result. -/
theorem c8_counterexample :
    get_nearby_profiles distZero dWTrue 0 0 0 10 (some "_") [sampleProfile] ≠
      (get_nearby_profiles distZero dWTrue 0 0 0 10 none [sampleProfile]).filter
        (fun row => containsCaseless "_" row.username) := by
  have hmatch : ilikeContains "_" "alice" = true := by
    simp [ilikeContains, likeMatch]
  have hsub : containsCaseless "_" "alice" = false := by
    simp [containsCaseless, containsCaseless.subCheck, List.isPrefixOf]
  have hR : (get_nearby_profiles distZero dWTrue 0 0 0 10 none [sampleProfile]).filter
      (fun row => containsCaseless "_" row.username) = [] := by
    rw [List.filter_eq_nil_iff]
    intro r hr
    obtain ⟨p, hp, hsome⟩ := (mem_get_nearby_profiles _ _ _ _ _ _ _ _ _).mp hr
    obtain ⟨loc, -, -, heq⟩ := (nearbyProfileRow_eq_some _ _ _ _ _ _ _ _).mp hsome
    have hpu : p.username = "alice" := by
      rcases List.mem_singleton.mp hp with rfl
      rfl
    rw [heq]
    simp [hpu, hsub]
  have hL : ({ id := 1, username := "alice", full_name := none, avatar_url := none,
               distance_km := distZero ⟨0, 0⟩ ⟨0, 0⟩ / 1000 } : ProfileResult) ∈
      get_nearby_profiles distZero dWTrue 0 0 0 10 (some "_") [sampleProfile] := by
    rw [mem_get_nearby_profiles]
    refine ⟨sampleProfile, by simp, ?_⟩
    rw [nearbyProfileRow_eq_some]
    exact ⟨⟨0, 0⟩, rfl, by simp [termCond, sampleProfile, dWTrue, hmatch], rfl⟩
  intro habs
  rw [habs, hR] at hL
  exact absurd hL (List.not_mem_nil _)

/-- Claim C8 amended: supplying a search term is a pure narrowing — the
result list with a term equals the no-term result list filtered by the
term matching the username as a case-insensitive SQL `LIKE` pattern
wrapped in `%` wildcards (for terms without the wildcard characters `%`
and `_` this is exactly case-insensitive substring containment); each
retained row, its `distance_km`, and the distance/TTL semantics are
unchanged, and the term never adds results. -/
theorem c8_search_term_narrowing_ilike (dist : DistFn) (dW : DWithinFn)
    (caller : Nat) (lat lng : ℚ) (rkm : ℤ) (term : String)
    (profiles : List ProfileRow) :
    get_nearby_profiles dist dW caller lat lng rkm (some term) profiles =
      (get_nearby_profiles dist dW caller lat lng rkm none profiles).filter
        (fun row => ilikeContains term row.username) := by
  unfold get_nearby_profiles
  rw [filter_orderBy _ _ profileLe_total profileLe_trans,
    filterMap_term_eq_filter]

end FrndZone
